import Mathlib

/-!
Shallow embedding of the C13 debug subsection decoder (`src/modi/c13.rs` of the
`pdb` crate): subsection framing, bit-packed line-number decoding, file
checksum tables, cross-module import/export resolution, and the inlinee line
reconstruction engine.

Conventions of the embedding:
* machine integers (`u8`, `u16`, `u32`) are `Nat`, reduced modulo `2 ^ 32`
  exactly where the source performs wrapping arithmetic;
* byte buffers are `List Nat` (each element one byte);
* fallible decoding returns `Except Error`;
* types that live in sibling modules of the crate (`crate::common`,
  `crate::modi`, `crate::symbol`) but are consumed here are modelled with the
  fields this file uses.
-/

namespace Pdb

/-- Truncation to 32 bits, i.e. Rust wrapping `u32` arithmetic. -/
def u32mod (n : Nat) : Nat := n % 4294967296

/-- The Rust cast `(x : i64) as u32`: keep the low 32 bits (two's complement). -/
def i64AsU32 (i : Int) : Nat := (i.emod 4294967296).toNat

/-- Little-endian `u16` from two bytes. -/
def u16le (b0 b1 : Nat) : Nat := b0 + 256 * b1

/-- Little-endian `u32` from four bytes. -/
def u32le (b0 b1 b2 b3 : Nat) : Nat :=
  b0 + 256 * b1 + 65536 * b2 + 16777216 * b3

/-- The error cases of `crate::Error` that `c13.rs` can raise.
`unexpectedEof` stands for the truncation error produced by the `ParseBuffer`
byte cursor (`take`/`parse` on insufficient input). -/
inductive Error where
  | unexpectedEof
  | unimplementedDebugSubsection (value : Nat)
  | unimplementedFileChecksumKind (value : Nat)
  | invalidStreamLength
  | notACrossModuleRef (value : Nat)
  | crossModuleRefNotFound (value : Nat)
  | invalidFileChecksumOffset (value : Nat)
deriving DecidableEq, Repr

/-- Kind of code construct a line entry refers to (`crate::modi::LineInfoKind`). -/
inductive LineInfoKind where
  | Statement
  | Expression
deriving DecidableEq, Repr

/-- `crate::common::PdbInternalSectionOffset`: a section index plus a byte
offset inside that section.  The `section` field of the Rust struct is named
`sect` here because `section` is a Lean keyword. -/
structure PdbInternalSectionOffset where
  offset : Nat
  sect : Nat
deriving DecidableEq, Repr

/-- `PdbInternalSectionOffset::wrapping_add(delta)`: wrapping u32 addition on
the offset field. -/
def PdbInternalSectionOffset.wrapping_add
    (s : PdbInternalSectionOffset) (delta : Nat) : PdbInternalSectionOffset :=
  { s with offset := u32mod (s.offset + delta) }

/-- `impl Add<u32> for PdbInternalSectionOffset` (the `+` / `+=` used by
`c13.rs`); modelled as wrapping addition modulo `2 ^ 32`. -/
def PdbInternalSectionOffset.addOffset
    (s : PdbInternalSectionOffset) (delta : Nat) : PdbInternalSectionOffset :=
  { s with offset := u32mod (s.offset + delta) }

/-! ## Line number records (c13.rs lines 249-346) -/

/-- The raw line number entry (`LineNumberHeader`): a code offset plus the
bit-packed `flags` word (24-bit start line, 7-bit end-line delta, 1-bit
statement flag). -/
structure LineNumberHeader where
  offset : Nat
  flags : Nat
deriving DecidableEq, Repr

/-- A decoded line number entry (`LineNumberEntry`). -/
structure LineNumberEntry where
  offset : Nat
  start_line : Nat
  end_line : Nat
  kind : LineInfoKind
deriving DecidableEq, Repr

/-- Marker instructions for a line offset (`LineMarkerKind`). -/
inductive LineMarkerKind where
  | DoNotStepOnto
  | DoNotStepInto
deriving DecidableEq, Repr

/-- A decoded marker entry (`LineMarkerEntry`). -/
structure LineMarkerEntry where
  offset : Nat
  kind : LineMarkerKind
deriving DecidableEq, Repr

/-- A parsed line entry (`LineEntry`): either a source line number or a
debugging marker. -/
inductive LineEntry where
  | Number (entry : LineNumberEntry)
  | Marker (entry : LineMarkerEntry)
deriving DecidableEq, Repr

/-- `LineNumberHeader::parse` (c13.rs lines 296-346), translated literally.

Note on `line_delta`: the source writes `self.flags & 0x7f00_0000 >> 24`.
In Rust the shift binds tighter than the bitwise and, so this evaluates as
`self.flags & (0x7f00_0000 >> 24)`, i.e. `self.flags & 0x7f`; the translation
reproduces that grouping.  `!0x7f` on `u32` is `0xffffff80`. -/
def LineNumberHeader.parse (h : LineNumberHeader) : LineEntry :=
  let start_line := h.flags &&& 0xffffff
  if start_line = 0xfeefee then
    LineEntry.Marker { offset := h.offset, kind := LineMarkerKind.DoNotStepOnto }
  else if start_line = 0xf00f00 then
    LineEntry.Marker { offset := h.offset, kind := LineMarkerKind.DoNotStepInto }
  else
    let line_delta := h.flags &&& (0x7f000000 >>> 24)
    let high_start := start_line &&& 0xffffff80
    let end_line0 := high_start ||| line_delta
    let end_line := if end_line0 < start_line then end_line0 + 128 else end_line0
    let kind :=
      if h.flags &&& 0x80000000 ≠ 0 then LineInfoKind.Statement
      else LineInfoKind.Expression
    LineEntry.Number
      { offset := h.offset, start_line := start_line, end_line := end_line,
        kind := kind }

/-- The line-number decode as the specification words it (spec §4.2): the
7-bit `line_delta` is taken from bits 24-30 of the packed word, the high bits
of `start_line` are kept and the delta is OR-ed in as the low 7 bits, and a
wrap of 128 is added whenever the result is numerically below `start_line`.
This definition exists to compare the specified behaviour against
`LineNumberHeader.parse` above. -/
def LineNumberHeader.parseSpec (h : LineNumberHeader) : LineEntry :=
  let start_line := h.flags &&& 0xffffff
  if start_line = 0xfeefee then
    LineEntry.Marker { offset := h.offset, kind := LineMarkerKind.DoNotStepOnto }
  else if start_line = 0xf00f00 then
    LineEntry.Marker { offset := h.offset, kind := LineMarkerKind.DoNotStepInto }
  else
    let line_delta := (h.flags >>> 24) &&& 0x7f
    let high_start := start_line &&& 0xffffff80
    let end_line0 := high_start ||| line_delta
    let end_line := if end_line0 < start_line then end_line0 + 128 else end_line0
    let kind :=
      if h.flags &&& 0x80000000 ≠ 0 then LineInfoKind.Statement
      else LineInfoKind.Expression
    LineEntry.Number
      { offset := h.offset, start_line := start_line, end_line := end_line,
        kind := kind }

/-! ## Subsection framer (c13.rs lines 14-104) -/

/-- The closed enumeration of debug subsection kinds (`DebugSubsectionKind`),
with discriminants `0xf1` through `0xfd`. -/
inductive DebugSubsectionKind where
  | Symbols
  | Lines
  | StringTable
  | FileChecksums
  | FrameData
  | InlineeLines
  | CrossScopeImports
  | CrossScopeExports
  | ILLines
  | FuncMDTokenMap
  | TypeMDTokenMap
  | MergedAssemblyInput
  | CoffSymbolRva
deriving DecidableEq, Repr

/-- Modelled from the spec: the reserved ignore tag (`constants::DEBUG_S_IGNORE`
lives in `crate::modi::constants`, outside this file); per the CodeView format
it is the value with only the high bit set. -/
def DEBUG_S_IGNORE : Nat := 0x80000000

/-- The in-range transmute of `DebugSubsectionKind::parse`: maps each
discriminant in `0xf1..=0xfd` to its constructor.  Only applied under the
range guard of `DebugSubsectionKind.parse` (the final catch-all arm is
unreachable there). -/
def DebugSubsectionKind.ofValue (value : Nat) : DebugSubsectionKind :=
  match value with
  | 0xf1 => DebugSubsectionKind.Symbols
  | 0xf2 => DebugSubsectionKind.Lines
  | 0xf3 => DebugSubsectionKind.StringTable
  | 0xf4 => DebugSubsectionKind.FileChecksums
  | 0xf5 => DebugSubsectionKind.FrameData
  | 0xf6 => DebugSubsectionKind.InlineeLines
  | 0xf7 => DebugSubsectionKind.CrossScopeImports
  | 0xf8 => DebugSubsectionKind.CrossScopeExports
  | 0xf9 => DebugSubsectionKind.ILLines
  | 0xfa => DebugSubsectionKind.FuncMDTokenMap
  | 0xfb => DebugSubsectionKind.TypeMDTokenMap
  | 0xfc => DebugSubsectionKind.MergedAssemblyInput
  | _ => DebugSubsectionKind.CoffSymbolRva

/-- `DebugSubsectionKind::parse` (c13.rs lines 38-46): values in
`0xf1..=0xfd` decode to a kind, the ignore tag decodes to `none` (no
subsection), anything else is an `UnimplementedDebugSubsection` error. -/
def DebugSubsectionKind.parse (value : Nat) :
    Except Error (Option DebugSubsectionKind) :=
  if 0xf1 ≤ value ∧ value ≤ 0xfd then
    Except.ok (some (DebugSubsectionKind.ofValue value))
  else if value = DEBUG_S_IGNORE then
    Except.ok none
  else
    Except.error (Error.unimplementedDebugSubsection value)

/-- A typed, length-delimited subsection (`DebugSubsection`). -/
structure DebugSubsection where
  kind : DebugSubsectionKind
  data : List Nat
deriving DecidableEq, Repr

/-- One step of `DebugSubsectionIterator::next` (c13.rs lines 90-103),
returning the decoded subsection together with the remaining buffer.  Each
step parses the fixed 8-byte header `{kind : u32, len : u32}` (truncation
error on fewer than 8 bytes), takes exactly `len` body bytes (truncation
error when fewer remain), and only then inspects the kind: recognized kinds
are returned, the ignore tag loops to the next subsection, and any other kind
value is a decode error. -/
def DebugSubsectionIterator.next (buf : List Nat) :
    Except Error (Option (DebugSubsection × List Nat)) :=
  if buf.isEmpty then
    Except.ok none
  else
    match buf with
    | k0 :: k1 :: k2 :: k3 :: l0 :: l1 :: l2 :: l3 :: rest =>
      let kindValue := u32le k0 k1 k2 k3
      let len := u32le l0 l1 l2 l3
      if len ≤ rest.length then
        match DebugSubsectionKind.parse kindValue with
        | Except.error e => Except.error e
        | Except.ok (some kind) =>
          Except.ok (some ({ kind := kind, data := rest.take len }, rest.drop len))
        | Except.ok none => DebugSubsectionIterator.next (rest.drop len)
      else
        Except.error Error.unexpectedEof
    | _ => Except.error Error.unexpectedEof
termination_by buf.length
decreasing_by
  simp only [List.length_cons, List.length_drop]
  omega

/-! ## Lines subsection, blocks and the flattened line iterator
(c13.rs lines 203-238, 348-493, 854-919) -/

/-- Modelled from the spec: the column-presence flag bit of the lines
subsection header (`constants::CV_LINES_HAVE_COLUMNS`, defined outside this
file); per the CodeView format it is bit 0 of the flags word. -/
def CV_LINES_HAVE_COLUMNS : Nat := 0x1

/-- `DebugLinesHeader`: section offset anchor, flags word and code size of a
lines subsection contribution. -/
structure DebugLinesHeader where
  offset : PdbInternalSectionOffset
  flags : Nat
  code_size : Nat
deriving DecidableEq, Repr

/-- `DebugLinesHeader::has_columns` (c13.rs lines 214-216). -/
def DebugLinesHeader.has_columns (h : DebugLinesHeader) : Bool :=
  h.flags &&& CV_LINES_HAVE_COLUMNS ≠ 0

/-- `DebugLinesSubsection::parse` (c13.rs lines 225-230): split the 12-byte
header (`offset.offset : u32`, `offset.section : u16`, `flags : u16`,
`code_size : u32`, read little-endian in declaration order) from the block
data. -/
def DebugLinesSubsection.parse (data : List Nat) :
    Except Error (DebugLinesHeader × List Nat) :=
  match data with
  | o0 :: o1 :: o2 :: o3 :: s0 :: s1 :: f0 :: f1 :: c0 :: c1 :: c2 :: c3 :: rest =>
    Except.ok
      ({ offset := { offset := u32le o0 o1 o2 o3, sect := u16le s0 s1 },
         flags := u16le f0 f1, code_size := u32le c0 c1 c2 c3 }, rest)
  | _ => Except.error Error.unexpectedEof

/-- `DebugLinesBlockHeader`: file checksum offset, number of line entries and
total block byte size. -/
structure DebugLinesBlockHeader where
  file_index : Nat
  num_lines : Nat
  block_size : Nat
deriving DecidableEq, Repr

/-- `DebugLinesBlockHeader::data_size` (c13.rs lines 411-413):
`block_size - size_of::<Self>()` with `size_of = 12`.  `Nat` subtraction
truncates at zero where the Rust `usize` subtraction would overflow; the
claims only exercise well-formed blocks where `block_size ≥ 12`. -/
def DebugLinesBlockHeader.data_size (h : DebugLinesBlockHeader) : Nat :=
  h.block_size - 12

/-- `DebugLinesBlockHeader::line_size` (c13.rs lines 416-418): `num_lines`
8-byte `LineNumberHeader` records. -/
def DebugLinesBlockHeader.line_size (h : DebugLinesBlockHeader) : Nat :=
  h.num_lines * 8

/-- `DebugLinesBlockHeader::column_size` (c13.rs lines 421-427): `num_lines`
4-byte `ColumnNumberEntry` records when the subsection declares columns,
otherwise zero. -/
def DebugLinesBlockHeader.column_size
    (h : DebugLinesBlockHeader) (subsection : DebugLinesHeader) : Nat :=
  if subsection.has_columns then h.num_lines * 4 else 0

/-- A decoded block (`DebugLinesBlock`): header plus the sliced-out line and
column byte spans. -/
structure DebugLinesBlock where
  header : DebugLinesBlockHeader
  line_data : List Nat
  column_data : List Nat
deriving DecidableEq, Repr

/-- One step of `DebugLinesBlockIterator::next` (c13.rs lines 468-492):
parse the 12-byte block header, take `data_size` bytes, split off
`line_size` bytes of line records and then `column_size` bytes of column
records (`split_at`, modelled by `take`/`drop`; the claims only exercise
blocks whose sizes fit, where the two coincide). -/
def DebugLinesBlockIterator.next (header : DebugLinesHeader) (buf : List Nat) :
    Except Error (Option (DebugLinesBlock × List Nat)) :=
  if buf.isEmpty then
    Except.ok none
  else
    match buf with
    | f0 :: f1 :: f2 :: f3 :: n0 :: n1 :: n2 :: n3 :: s0 :: s1 :: s2 :: s3 :: rest =>
      let blockHeader : DebugLinesBlockHeader :=
        { file_index := u32le f0 f1 f2 f3, num_lines := u32le n0 n1 n2 n3,
          block_size := u32le s0 s1 s2 s3 }
      if blockHeader.data_size ≤ rest.length then
        let data := rest.take blockHeader.data_size
        let line_data := data.take blockHeader.line_size
        let afterLines := data.drop blockHeader.line_size
        let column_data := afterLines.take (blockHeader.column_size header)
        Except.ok (some ({ header := blockHeader, line_data := line_data,
                           column_data := column_data },
                         rest.drop blockHeader.data_size))
      else
        Except.error Error.unexpectedEof
    | _ => Except.error Error.unexpectedEof

/-- `DebugLinesBlock::lines` (c13.rs lines 443-448): the buffer over which
the block's line-number iterator runs. -/
def DebugLinesBlock.lines_buf (b : DebugLinesBlock) : List Nat :=
  b.line_data

/-- `DebugLinesBlock::columns` (c13.rs lines 450-455): the buffer over which
the block's column iterator runs.  The source constructs this iterator from
`self.line_data` (c13.rs line 453); the `column_data` field is never read. -/
def DebugLinesBlock.columns_buf (b : DebugLinesBlock) : List Nat :=
  b.line_data

/-- `ColumnNumberEntry`: a `{start_column : u16, end_column : u16}` record. -/
structure ColumnNumberEntry where
  start_column : Nat
  end_column : Nat
deriving DecidableEq, Repr

/-- A reconstructed line info record (`crate::modi::LineInfo`). -/
structure LineInfo where
  offset : PdbInternalSectionOffset
  length : Option Nat
  file_index : Nat
  line_start : Nat
  line_end : Nat
  column_start : Option Nat
  column_end : Option Nat
  kind : LineInfoKind
deriving DecidableEq, Repr

/-- The per-block loop of `LineIterator::next` (c13.rs lines 870-900),
drained to a list: pull the next 8-byte line record from the line buffer
(`DebugLinesIterator::next`, empty buffer ends the block, a short buffer is a
truncation error), pull one optional 4-byte column record from the column
buffer (`DebugColumnsIterator::next`), skip markers, and emit a `LineInfo`
whose offset rebases the entry offset on the subsection's section offset,
with `length = None`. -/
def LineIterator.blockLines (sec : DebugLinesHeader)
    (blk : DebugLinesBlockHeader) :
    List Nat → List Nat → Except Error (List LineInfo)
  | [], _ => Except.ok []
  | o0 :: o1 :: o2 :: o3 :: g0 :: g1 :: g2 :: g3 :: lrest, cbuf =>
    let entry := LineNumberHeader.parse
      { offset := u32le o0 o1 o2 o3, flags := u32le g0 g1 g2 g3 }
    let colStep : Except Error (Option ColumnNumberEntry × List Nat) :=
      match cbuf with
      | [] => Except.ok (none, [])
      | a :: b :: c :: d :: crest =>
        Except.ok (some { start_column := u16le a b, end_column := u16le c d },
                   crest)
      | _ => Except.error Error.unexpectedEof
    match colStep with
    | Except.error e => Except.error e
    | Except.ok (columnEntry, crest) =>
      match entry with
      | LineEntry.Marker _ => LineIterator.blockLines sec blk lrest crest
      | LineEntry.Number lineEntry =>
        match LineIterator.blockLines sec blk lrest crest with
        | Except.error e => Except.error e
        | Except.ok tail =>
          Except.ok
            ({ offset := sec.offset.addOffset lineEntry.offset,
               length := none,
               file_index := blk.file_index,
               line_start := lineEntry.start_line,
               line_end := lineEntry.end_line,
               column_start := columnEntry.map ColumnNumberEntry.start_column,
               column_end := columnEntry.map ColumnNumberEntry.end_column,
               kind := lineEntry.kind } :: tail)
  | _, _ => Except.error Error.unexpectedEof

/-! ## File checksum table (c13.rs lines 495-590, 1200-1212)

The iterator state of `DebugFileChecksumsIterator` is modelled as the absolute
byte position `pos` inside the subsection data.  This coincides with the
`ParseBuffer` position both for full iteration (which starts at 0) and for
`entries_at_offset` (which builds a fresh buffer over the same data and
`take`s the offset, leaving the buffer position equal to the offset), so the
4-byte alignment step behaves identically in both. -/

/-- `FileChecksumKind` (c13.rs lines 496-504). -/
inductive FileChecksumKind where
  | NoChecksum
  | Md5
  | Sha1
  | Sha256
deriving DecidableEq, Repr

/-- `FileChecksumKind::parse` (c13.rs lines 508-514): raw values `0..=3`
decode to a kind, anything else is an `UnimplementedFileChecksumKind`
error. -/
def FileChecksumKind.parse (value : Nat) : Except Error FileChecksumKind :=
  if value ≤ 3 then
    Except.ok
      (match value with
       | 0 => FileChecksumKind.NoChecksum
       | 1 => FileChecksumKind.Md5
       | 2 => FileChecksumKind.Sha1
       | _ => FileChecksumKind.Sha256)
  else
    Except.error (Error.unimplementedFileChecksumKind value)

/-- `crate::modi::FileChecksum`: the checksum variant holding the raw bytes. -/
inductive FileChecksum where
  | NoChecksum
  | Md5 (bytes : List Nat)
  | Sha1 (bytes : List Nat)
  | Sha256 (bytes : List Nat)
deriving DecidableEq, Repr

/-- The match of c13.rs lines 551-556 building the checksum variant. -/
def FileChecksum.ofKind (kind : FileChecksumKind) (bytes : List Nat) :
    FileChecksum :=
  match kind with
  | FileChecksumKind.NoChecksum => FileChecksum.NoChecksum
  | FileChecksumKind.Md5 => FileChecksum.Md5 bytes
  | FileChecksumKind.Sha1 => FileChecksum.Sha1 bytes
  | FileChecksumKind.Sha256 => FileChecksum.Sha256 bytes

/-- A file checksum entry (`FileChecksumEntry`): the string-table reference of
the file name plus the checksum variant. -/
structure FileChecksumEntry where
  name : Nat
  checksum : FileChecksum
deriving DecidableEq, Repr

/-- The skip taken by `ParseBuffer::align(4)` at position `pos`: advance to
the next multiple of 4. -/
def alignSkip (pos : Nat) : Nat := (4 - pos % 4) % 4

/-- One step of `DebugFileChecksumsIterator::next` (c13.rs lines 543-564) at
absolute position `pos` of `data`: empty remainder ends iteration; otherwise
parse the 6-byte header `{name_offset : u32, checksum_size : u8,
checksum_kind : u8}`, take `checksum_size` checksum bytes, decode the
checksum kind, and align the position to the next 4-byte boundary (each step
failing with a truncation error on insufficient input).  Returns the entry
and the position of the next entry. -/
def checksumNext (data : List Nat) (pos : Nat) :
    Except Error (Option (FileChecksumEntry × Nat)) :=
  match data.drop pos with
  | [] => Except.ok none
  | b0 :: b1 :: b2 :: b3 :: b4 :: b5 :: rest =>
    if b4 ≤ rest.length then
      match FileChecksumKind.parse b5 with
      | Except.error e => Except.error e
      | Except.ok kind =>
        let pos1 := pos + 6 + b4
        if pos1 + alignSkip pos1 ≤ data.length then
          Except.ok (some
            ({ name := u32le b0 b1 b2 b3,
               checksum := FileChecksum.ofKind kind (rest.take b4) },
             pos1 + alignSkip pos1))
        else
          Except.error Error.unexpectedEof
    else
      Except.error Error.unexpectedEof
  | _ => Except.error Error.unexpectedEof

/-- Full iteration of the checksum subsection, collecting each entry together
with the byte offset at which it starts.  The fuel argument only bounds the
number of steps: every successful step advances the position by at least 6
bytes (see `checksumNext_bounds`), so `data.length + 1` steps are always
enough and the zero-fuel arm is unreachable from `checksumEntries`. -/
def checksumEntriesAux (data : List Nat) :
    Nat → Nat → Except Error (List (Nat × FileChecksumEntry))
  | 0, _ => Except.ok []
  | fuel + 1, pos =>
    match checksumNext data pos with
    | Except.error e => Except.error e
    | Except.ok none => Except.ok []
    | Except.ok (some (entry, next)) =>
      match checksumEntriesAux data fuel next with
      | Except.error e => Except.error e
      | Except.ok rest => Except.ok ((pos, entry) :: rest)

/-- `DebugFileChecksumsSubsection::entries` drained to a list of
(byte offset, entry) pairs, starting at position `pos`. -/
def checksumEntries (data : List Nat) (pos : Nat) :
    Except Error (List (Nat × FileChecksumEntry)) :=
  checksumEntriesAux data (data.length + 1) pos

/-- `DebugFileChecksumsSubsection::entries_at_offset` (c13.rs lines 585-589):
build a fresh buffer over the data and `take` the given offset, failing with
a truncation error when the offset exceeds the data; the resulting iterator
state is the offset itself. -/
def DebugFileChecksumsSubsection.entries_at_offset
    (data : List Nat) (offset : Nat) : Except Error Nat :=
  if offset ≤ data.length then Except.ok offset
  else Except.error Error.unexpectedEof

/-- `LineProgram::get_file_info` (c13.rs lines 1200-1212): treat the file
index as a byte offset into the checksum subsection, pull the first entry of
the iterator started there, and map an empty result to the
`InvalidFileChecksumOffset` error. -/
def LineProgram.get_file_info (data : List Nat) (index : Nat) :
    Except Error FileChecksumEntry :=
  match DebugFileChecksumsSubsection.entries_at_offset data index with
  | Except.error e => Except.error e
  | Except.ok pos =>
    match checksumNext data pos with
    | Except.error e => Except.error e
    | Except.ok none => Except.error (Error.invalidFileChecksumOffset index)
    | Except.ok (some (entry, _)) => Except.ok entry

/-! ## Cross-module import and export tables (c13.rs lines 592-852) -/

/-- `CrossScopeImportModule`: the name reference of an imported module plus
its ordered list of raw local indices (already converted from little-endian
on access; modelled as the converted values). -/
structure CrossScopeImportModule where
  name : Nat
  imports : List Nat
deriving DecidableEq, Repr

/-- `CrossScopeImportModule::get` (c13.rs lines 605-613): the local reference
at the given import slot, `none` when the slot is out of range. -/
def CrossScopeImportModule.get (m : CrossScopeImportModule) (imp : Nat) :
    Option Nat :=
  m.imports.get? imp

/-- Modelled from the spec: `ItemIndex::is_cross_module` (defined on the index
types in `crate::common`, outside this file) holds iff the reserved high bit
(bit 31) of the raw index is set. -/
def isCrossModule (raw : Nat) : Bool :=
  raw &&& 0x80000000 ≠ 0

/-- `CrossModuleImports::resolve_import` (c13.rs lines 692-714): reject
indices without the high bit as `NotACrossModuleRef`; otherwise index the
module list with `raw_index & 0x7ff0_0000` (the source applies the mask with
no right shift) and the module's import list with `raw_index & 0x000f_ffff`,
mapping either failed lookup to `CrossModuleRefNotFound`; on success return
the module name together with the local index stored at the slot. -/
def CrossModuleImports.resolve_import
    (modules : List CrossScopeImportModule) (raw_index : Nat) :
    Except Error (Nat × Nat) :=
  if ¬ isCrossModule raw_index then
    Except.error (Error.notACrossModuleRef raw_index)
  else
    let module_index := raw_index &&& 0x7ff00000
    let import_index := raw_index &&& 0x000fffff
    match modules.get? module_index with
    | none => Except.error (Error.crossModuleRefNotFound raw_index)
    | some m =>
      match m.get import_index with
      | none => Except.error (Error.crossModuleRefNotFound raw_index)
      | some localIdx => Except.ok (m.name, localIdx)

/-- The binary search loop over the export array, searching `lo ≤ i < hi` for
an entry whose `local` field equals `key`.  This models
`<[RawCrossScopeExport]>::binary_search_by_key` from the Rust standard
library (midpoint `(lo + hi) / 2`, narrowing to the half that can contain the
key, `none` when the window empties). -/
def bsearchGo (xs : List (Nat × Nat)) (key : Nat) (lo hi : Nat)
    (hhi : hi ≤ xs.length) : Option (Fin xs.length) :=
  if hlt : lo < hi then
    have hmid : (lo + hi) / 2 < xs.length := by omega
    let k := (xs.get ⟨(lo + hi) / 2, hmid⟩).1
    if k < key then
      bsearchGo xs key ((lo + hi) / 2 + 1) hi hhi
    else if key < k then
      bsearchGo xs key lo ((lo + hi) / 2) (by omega)
    else
      some ⟨(lo + hi) / 2, hmid⟩
  else
    none
termination_by hi - lo
decreasing_by
  · omega
  · omega

/-- `binary_search_by_key(&local, |r| r.local())` over the whole export
array. -/
def binarySearchByKey (xs : List (Nat × Nat)) (key : Nat) :
    Option (Fin xs.length) :=
  bsearchGo xs key 0 xs.length (Nat.le_refl _)

/-- `CrossModuleExports::resolve_global` (c13.rs lines 840-851): binary
search the sorted export array (pairs `(local, global)` of `u32` values, the
little-endian conversion already applied) by the `local` key and return the
paired `global` on a hit, `none` on a miss. -/
def CrossModuleExports.resolve_global
    (exports : List (Nat × Nat)) (localIdx : Nat) : Option Nat :=
  match binarySearchByKey exports localIdx with
  | some i => some (exports.get i).2
  | none => none

/-! ## Inline line reconstruction engine (c13.rs lines 921-1060)

The engine consumes a sequence of already decoded binary annotation
operations (`crate::symbol::BinaryAnnotation`, an external collaborator of
this file); the operation type and its `emits_line_info` flag are modelled
from the spec's interface description of that collaborator. -/

/-- `crate::symbol::BinaryAnnotation`: one decoded annotation operation.
Signed operands (`i32`) are `Int`, unsigned ones (`u32`) are `Nat`. -/
inductive BinaryAnnot where
  | CodeOffset (value : Nat)
  | ChangeCodeOffsetBase (value : Nat)
  | ChangeCodeOffset (delta : Nat)
  | ChangeCodeLength (value : Nat)
  | ChangeFile (file : Nat)
  | ChangeLineOffset (delta : Int)
  | ChangeLineEndDelta (value : Nat)
  | ChangeRangeKind (value : Nat)
  | ChangeColumnStart (value : Nat)
  | ChangeColumnEndDelta (delta : Int)
  | ChangeCodeOffsetAndLineOffset (codeDelta : Nat) (lineDelta : Int)
  | ChangeCodeLengthAndCodeOffset (codeLength : Nat) (codeDelta : Nat)
  | ChangeColumnEnd (value : Nat)
deriving DecidableEq, Repr

/-- Modelled from the spec: each annotation operation self-describes whether
it emits line info (`BinaryAnnotation::emits_line_info`, defined in
`crate::symbol` outside this file).  The operations that advance the code
offset as part of an emission are the emitting ones. -/
def BinaryAnnot.emits_line_info : BinaryAnnot → Bool
  | BinaryAnnot.ChangeCodeOffset _ => true
  | BinaryAnnot.ChangeCodeOffsetAndLineOffset _ _ => true
  | BinaryAnnot.ChangeCodeLengthAndCodeOffset _ _ => true
  | _ => false

/-- The mutable state of `InlineeLineIterator` (c13.rs lines 922-935), minus
the operation stream itself, which the run function below threads
explicitly. -/
structure InlineeState where
  file_index : Nat
  code_offset_base : Nat
  code_offset : PdbInternalSectionOffset
  code_length : Option Nat
  line : Nat
  line_length : Nat
  col_start : Option Nat
  col_end : Option Nat
  line_kind : LineInfoKind
  last_info : Option LineInfo
deriving DecidableEq, Repr

/-- `InlineeLineIterator::new` (c13.rs lines 938-956): seed the state from
the parent procedure offset and the inlinee record. -/
def InlineeState.new (parent_offset : PdbInternalSectionOffset)
    (inlinee_file : Nat) (inlinee_line : Nat) : InlineeState :=
  { file_index := inlinee_file
    code_offset_base := 0
    code_offset := parent_offset
    code_length := none
    line := inlinee_line
    line_length := 1
    col_start := none
    col_end := none
    line_kind := LineInfoKind.Statement
    last_info := none }

/-- The state update of one annotation operation: the `match op` block of
`InlineeLineIterator::next` (c13.rs lines 965-1025), translated arm by arm.
The `u32` subtraction and additions wrap modulo `2 ^ 32`; line and column
deltas go through a signed 64-bit intermediate and truncate back to `u32`
(`i64AsU32`), exactly as the source casts. -/
def applyAnnot (s : InlineeState) (op : BinaryAnnot) : InlineeState :=
  match op with
  | BinaryAnnot.CodeOffset code_offset =>
    { s with code_offset := { s.code_offset with offset := code_offset } }
  | BinaryAnnot.ChangeCodeOffsetBase code_offset_base =>
    { s with code_offset_base := code_offset_base }
  | BinaryAnnot.ChangeCodeOffset delta =>
    { s with code_offset := s.code_offset.wrapping_add delta }
  | BinaryAnnot.ChangeCodeLength code_length =>
    let patched : Option LineInfo :=
      match s.last_info with
      | some last_info =>
        if last_info.length = none ∧ last_info.kind = s.line_kind then
          some { last_info with length := some code_length }
        else
          some last_info
      | none => none
    { s with last_info := patched,
             code_offset := s.code_offset.wrapping_add code_length }
  | BinaryAnnot.ChangeFile file_index =>
    { s with file_index := file_index }
  | BinaryAnnot.ChangeLineOffset delta =>
    { s with line := i64AsU32 ((s.line : Int) + delta) }
  | BinaryAnnot.ChangeLineEndDelta line_length =>
    { s with line_length := line_length }
  | BinaryAnnot.ChangeRangeKind kind =>
    { s with line_kind :=
        match kind with
        | 0 => LineInfoKind.Expression
        | 1 => LineInfoKind.Statement
        | _ => s.line_kind }
  | BinaryAnnot.ChangeColumnStart col_start =>
    { s with col_start := some col_start }
  | BinaryAnnot.ChangeColumnEndDelta delta =>
    { s with col_end := s.col_end.map (fun col_end => i64AsU32 ((col_end : Int) + delta)) }
  | BinaryAnnot.ChangeCodeOffsetAndLineOffset code_delta line_delta =>
    { s with code_offset := s.code_offset.addOffset code_delta,
             line := i64AsU32 ((s.line : Int) + line_delta) }
  | BinaryAnnot.ChangeCodeLengthAndCodeOffset code_length code_delta =>
    { s with code_length := some code_length,
             code_offset := s.code_offset.addOffset code_delta }
  | BinaryAnnot.ChangeColumnEnd col_end =>
    { s with col_end := some col_end }

/-- The back-patch preceding an emission (c13.rs lines 1031-1035): when a
pending record exists whose length is unset and whose kind still matches the
current kind, set its length to `code_offset.offset - code_offset_base`
(wrapping u32 subtraction). -/
def backpatchLast (s : InlineeState) : InlineeState :=
  match s.last_info with
  | some last_info =>
    if last_info.length = none ∧ last_info.kind = s.line_kind then
      let inferred := u32mod (s.code_offset.offset + 4294967296 - s.code_offset_base)
      let patched : LineInfo := { last_info with length := some inferred }
      { s with last_info := some patched }
    else
      s
  | none => s

/-- The line info record built from the current state on an emission
(c13.rs lines 1037-1046). -/
def pendingRecord (s : InlineeState) : LineInfo :=
  { kind := s.line_kind
    file_index := s.file_index
    offset := s.code_offset.addOffset s.code_offset_base
    length := s.code_length
    line_start := s.line
    line_end := u32mod (s.line + s.line_length)
    column_start := s.col_start
    column_end := s.col_end }

/-- The emission step (c13.rs lines 1031-1055): back-patch the pending
record, build the new record, reset the one-shot code length, swap the new
record in as pending, and hand back the previous pending record (if any). -/
def emitLineInfo (s : InlineeState) : InlineeState × Option LineInfo :=
  let patched := backpatchLast s
  let line_info := pendingRecord patched
  ({ patched with code_length := none, last_info := some line_info },
   patched.last_info)

/-- `InlineeLineIterator` drained to a list (`collect`): replay the operation
sequence against the state (c13.rs lines 963-1059).  Every operation updates
the state; operations whose `emits_line_info` flag is set additionally run
the emission step, whose returned previous pending record (when present) is
the next output.  When the operation stream is exhausted the final pending
record, if any, is flushed (`self.last_info.take()`). -/
def inlineeRun (s : InlineeState) : List BinaryAnnot → List LineInfo
  | [] => s.last_info.toList
  | op :: rest =>
    let s1 := applyAnnot s op
    if op.emits_line_info then
      let step := emitLineInfo s1
      step.2.toList ++ inlineeRun step.1 rest
    else
      inlineeRun s1 rest

/-- Modelled from the spec: the annotation stream `[12, 2, 63, 12, 3, 9, 0, 0]`
of the test inline site decodes to two combined code-length+offset operations
(the instruction decoder lives in `crate::symbol`, outside this file) with
code lengths 2 and 3 and code offsets 0x3f and 9; the trailing zero bytes are
padding and decode to nothing. -/
def testAnnotStream : List BinaryAnnot :=
  [BinaryAnnot.ChangeCodeLengthAndCodeOffset 2 0x3f,
   BinaryAnnot.ChangeCodeLengthAndCodeOffset 3 9]

/-- A two-module import table: module 0 (name reference 100) and module 1
(name reference 200), each holding a single import slot. -/
def twoModuleImports : List CrossScopeImportModule :=
  [{ name := 100, imports := [7] }, { name := 200, imports := [8] }]

/-- A lines subsection with columns declared: 12-byte header
(section offset 1:0, flags 1 = columns present, code size 16), one block
(file index 0x10, one line, block size 24), one line record
(code offset 5, packed word 0x8000002a = statement at line 42) and one
column record (start column 7, end column 9). -/
def linesWithColumns : List Nat :=
  [0, 0, 0, 0, 1, 0, 1, 0, 16, 0, 0, 0,
   16, 0, 0, 0, 1, 0, 0, 0, 24, 0, 0, 0,
   5, 0, 0, 0, 42, 0, 0, 128,
   7, 0, 9, 0]

/-- The header of `linesWithColumns`. -/
def linesWithColumnsHeader : DebugLinesHeader :=
  { offset := { offset := 0, sect := 1 }, flags := 1, code_size := 16 }

/-- The block of `linesWithColumns`. -/
def linesWithColumnsBlock : DebugLinesBlock :=
  { header := { file_index := 0x10, num_lines := 1, block_size := 24 }
    line_data := [5, 0, 0, 0, 42, 0, 0, 128]
    column_data := [7, 0, 9, 0] }

/-! ## Theorems -/

/-- On any non-marker packed word, the low-bits grouping of
`self.flags & 0x7f00_0000 >> 24` makes the decoded `end_line` coincide with
`start_line`: the masked value is the low 7 bits of `start_line` itself, so
OR-ing it back below the high bits reconstructs `start_line`. -/
theorem lor_of_split_masks (x : Nat) (hlt : x < 2 ^ 24) :
    (x &&& 0xffffff80) ||| (x &&& 0x7f) = x := by
  apply Nat.eq_of_testBit_eq
  intro i
  simp only [Nat.testBit_lor, Nat.testBit_land]
  cases hx : x.testBit i
  · simp
  · have hi : i < 32 := by
      by_contra hge
      have hfalse : x.testBit i = false :=
        Nat.testBit_lt_two_pow
          (lt_of_lt_of_le hlt (Nat.pow_le_pow_right (by norm_num) (by omega)))
      rw [hx] at hfalse
      exact Bool.noConfusion hfalse
    have hmask : (Nat.testBit 0xffffff80 i || Nat.testBit 0x7f i) = true := by
      have h32 : ((0xffffff80 : Nat) ||| 0x7f) = 2 ^ 32 - 1 := by decide
      have hbit := Nat.testBit_lor 0xffffff80 0x7f i
      rw [h32, Nat.testBit_two_pow_sub_one] at hbit
      rw [← hbit]
      simp [hi]
    simp only [Bool.true_and]
    exact hmask

theorem parse_end_line_eq_start_line (offset flags : Nat)
    (h1 : flags &&& 0xffffff ≠ 0xfeefee) (h2 : flags &&& 0xffffff ≠ 0xf00f00) :
    ∃ k, LineNumberHeader.parse { offset := offset, flags := flags } =
      LineEntry.Number
        { offset := offset, start_line := flags &&& 0xffffff,
          end_line := flags &&& 0xffffff, kind := k } := by
  have e1 : (0x7f000000 : Nat) >>> 24 = 127 := by decide
  have e2 : (0xffffff : Nat) &&& 127 = 127 := by decide
  have hdelta : flags &&& (0x7f000000 >>> 24) = (flags &&& 0xffffff) &&& 0x7f := by
    rw [e1, Nat.land_assoc, e2]
  have hlt : flags &&& 0xffffff < 2 ^ 24 := by
    have hmod := Nat.and_pow_two_sub_one_eq_mod flags 24
    have h24 : (2 ^ 24 - 1 : Nat) = 0xffffff := by norm_num
    rw [h24] at hmod
    have := Nat.mod_lt flags (show 0 < 2 ^ 24 by norm_num)
    omega
  have hor : ((flags &&& 0xffffff) &&& 0xffffff80) |||
      ((flags &&& 0xffffff) &&& 0x7f) = flags &&& 0xffffff :=
    lor_of_split_masks _ hlt
  refine ⟨if flags &&& 0x80000000 ≠ 0 then LineInfoKind.Statement
          else LineInfoKind.Expression, ?_⟩
  unfold LineNumberHeader.parse
  simp only [h1, h2, if_false, hdelta, hor]
  have hnot : ¬ (flags &&& 0xffffff < flags &&& 0xffffff) := lt_irrefl _
  simp [hnot]

/-- C1: the claim fails on the code and the code contradicts its own field
documentation.  `LineNumberHeader::parse` writes
`self.flags & 0x7f00_0000 >> 24`; Rust's shift binds tighter than the bitwise
and, so `line_delta` is the low 7 bits of the word (the low bits of
`start_line`), not bits 24-30 as the `deltaLineEnd:7` doc comment and the
claim state.  Consequently `end_line` always equals `start_line`
(first conjunct, via `parse_end_line_eq_start_line`), and on the packed word
`0x01000005` (start line 5, `deltaLineEnd` 1) the code decodes
`end_line = 5` (second conjunct) while the claimed computation yields
`end_line = 129` (third conjunct, via `LineNumberHeader.parseSpec`, which
follows the spec's words). -/
theorem c1_line_delta_precedence
    (offset flags : Nat)
    (h1 : flags &&& 0xffffff ≠ 0xfeefee) (h2 : flags &&& 0xffffff ≠ 0xf00f00) :
    (∃ k, LineNumberHeader.parse { offset := offset, flags := flags } =
      LineEntry.Number
        { offset := offset, start_line := flags &&& 0xffffff,
          end_line := flags &&& 0xffffff, kind := k }) ∧
    LineNumberHeader.parse { offset := 0, flags := 0x01000005 } =
      LineEntry.Number
        { offset := 0, start_line := 5, end_line := 5,
          kind := LineInfoKind.Expression } ∧
    LineNumberHeader.parseSpec { offset := 0, flags := 0x01000005 } =
      LineEntry.Number
        { offset := 0, start_line := 5, end_line := 129,
          kind := LineInfoKind.Expression } :=
  ⟨parse_end_line_eq_start_line offset flags h1 h2, by decide, by decide⟩

/-- Witness for `c1_line_delta_precedence` at the packed word `0x01000005`. -/
theorem c1_line_delta_precedence_witness :
    (∃ k, LineNumberHeader.parse { offset := 0, flags := 0x01000005 } =
      LineEntry.Number
        { offset := 0, start_line := 0x01000005 &&& 0xffffff,
          end_line := 0x01000005 &&& 0xffffff, kind := k }) ∧
    LineNumberHeader.parseSpec { offset := 0, flags := 0x01000005 } =
      LineEntry.Number
        { offset := 0, start_line := 5, end_line := 129,
          kind := LineInfoKind.Expression } :=
  ⟨(c1_line_delta_precedence 0 0x01000005 (by decide) (by decide)).1,
   (c1_line_delta_precedence 0 0x01000005 (by decide) (by decide)).2.2⟩

/-- C3: replaying the annotation stream `[12,2,63,12,3,9,0,0]` with inlinee
record `{file = 0x270, line = 341}` and parent offset
`{section = 1, offset = 0x120}` yields exactly the two line-info records
`{offset = 1:0x15f, length = Some 2, lines 341-342, Statement}` and
`{offset = 1:0x168, length = Some 3, lines 341-342, Statement}`. -/
theorem c3_inlinee_line_reconstruction :
    inlineeRun
      (InlineeState.new { offset := 0x120, sect := 0x1 } 0x270 341)
      testAnnotStream =
    [{ offset := { offset := 0x15f, sect := 0x1 }, length := some 2,
       file_index := 0x270, line_start := 341, line_end := 342,
       column_start := none, column_end := none,
       kind := LineInfoKind.Statement },
     { offset := { offset := 0x168, sect := 0x1 }, length := some 3,
       file_index := 0x270, line_start := 341, line_end := 342,
       column_start := none, column_end := none,
       kind := LineInfoKind.Statement }] := by decide

/-- C9: the claim fails on the code and the code contradicts its own doc
comment.  The raw index `0x80100000` has the reserved high bit set, module
selector `(raw >> 20) & 0x7ff = 1` and import slot `raw & 0xfffff = 0`
(second and third conjuncts); both are in range of `twoModuleImports`
(fourth and fifth conjuncts), so per the claim (and the function's own doc
comment on `CrossModuleRefNotFound`) resolution should succeed with module
1's name and its slot-0 local index.  The code instead indexes the module
list with the unshifted mask `raw & 0x7ff0_0000 = 0x100000` and fails with
`CrossModuleRefNotFound` (first conjunct).  The `NotACrossModuleRef` side of
the claim does hold (sixth conjunct), and the two errors are distinguishable
(last conjunct). -/
theorem c9_resolve_import_unshifted_selector :
    CrossModuleImports.resolve_import twoModuleImports 0x80100000 =
      Except.error (Error.crossModuleRefNotFound 0x80100000) ∧
    (0x80100000 >>> 20) &&& 0x7ff = 1 ∧
    0x80100000 &&& 0xfffff = 0 ∧
    twoModuleImports.length = 2 ∧
    (twoModuleImports.get? 1).map (fun m => m.imports.length) = some 1 ∧
    CrossModuleImports.resolve_import twoModuleImports 0x5 =
      Except.error (Error.notACrossModuleRef 0x5) ∧
    Error.notACrossModuleRef 0x5 ≠ Error.crossModuleRefNotFound 0x5 := by
  refine ⟨rfl, by decide, by decide, by decide, by decide, rfl, by decide⟩

/-- C10 counterexample: the empty file-checksum table has no entries (first
conjunct), so offset 4 designates no entry; yet `get_file_info` at offset 4
returns the truncation error of the underlying `take`, not the
`InvalidFileChecksumOffset` error the claim requires (second and third
conjuncts). -/
theorem c10_out_of_range_gives_eof :
    checksumEntries [] 0 = Except.ok [] ∧
    LineProgram.get_file_info [] 4 = Except.error Error.unexpectedEof ∧
    Except.error (α := FileChecksumEntry) Error.unexpectedEof ≠
      Except.error (Error.invalidFileChecksumOffset 4) := by
  refine ⟨rfl, rfl, by simp⟩

/-- C10 (amended): looking up an out-of-range byte offset in the
file-checksum table always yields an error, never a silently empty success:
the explicit `InvalidFileChecksumOffset` error when the offset equals the
length of the checksum data (no bytes remain there), and the truncation
error of the byte cursor when the offset exceeds the data length. -/
theorem c10_get_file_info_out_of_range (data : List Nat) (offset : Nat) :
    (offset = data.length →
      LineProgram.get_file_info data offset =
        Except.error (Error.invalidFileChecksumOffset offset)) ∧
    (data.length < offset →
      LineProgram.get_file_info data offset =
        Except.error Error.unexpectedEof) := by
  constructor
  · intro h
    subst h
    unfold LineProgram.get_file_info DebugFileChecksumsSubsection.entries_at_offset
    simp [checksumNext, List.drop_length]
  · intro h
    unfold LineProgram.get_file_info DebugFileChecksumsSubsection.entries_at_offset
    simp [Nat.not_le.mpr h]

/-- Witness for `c10_get_file_info_out_of_range` on the empty table at
offset 0. -/
theorem c10_get_file_info_out_of_range_witness :
    LineProgram.get_file_info [] 0 =
      Except.error (Error.invalidFileChecksumOffset 0) :=
  (c10_get_file_info_out_of_range [] 0).1 rfl

/-- C2: the claim fails on the code and the code contradicts its own
comments.  On `linesWithColumns` the block decode does slice out exactly
`num_lines` column records positioned after the line records
(`column_data = [7, 0, 9, 0]`, the record `{start 7, end 9}` — first,
second and third conjuncts, the first half of the claim), but
`DebugLinesBlock::columns` constructs its iterator over `line_data`
(c13.rs line 453), so the flattened line iterator pairs the emitted record
with the first four bytes of the line records reinterpreted as a column
record: the emitted record carries `column_start = some 5` and
`column_end = some 0` (fourth conjunct) instead of the block's column
record values 7 and 9 (last conjunct). -/
theorem c2_columns_read_line_data :
    DebugLinesSubsection.parse linesWithColumns =
      Except.ok (linesWithColumnsHeader, linesWithColumns.drop 12) ∧
    linesWithColumnsHeader.has_columns = true ∧
    DebugLinesBlockIterator.next linesWithColumnsHeader
        (linesWithColumns.drop 12) =
      Except.ok (some (linesWithColumnsBlock, [])) ∧
    LineIterator.blockLines linesWithColumnsHeader linesWithColumnsBlock.header
        linesWithColumnsBlock.lines_buf linesWithColumnsBlock.columns_buf =
      Except.ok
        [{ offset := { offset := 5, sect := 1 }, length := none,
           file_index := 0x10, line_start := 42, line_end := 42,
           column_start := some 5, column_end := some 0,
           kind := LineInfoKind.Statement }] ∧
    ((some 5 : Option Nat) ≠ some 7 ∧ (some 0 : Option Nat) ≠ some 9) := by
  refine ⟨rfl, rfl, rfl, rfl, by decide, by decide⟩

/-- No annotation operation creates or drops the pending record: the state
update only ever rewrites it in place. -/
theorem applyAnnot_last_isSome (s : InlineeState) (op : BinaryAnnot) :
    (applyAnnot s op).last_info.isSome = s.last_info.isSome := by
  cases op <;>
    first
      | rfl
      | (simp only [applyAnnot]
         cases h : s.last_info
         · simp [h]
         · simp only [h]
           split <;> simp [h])

/-- The pre-emission back-patch only ever rewrites the pending record in
place. -/
theorem backpatchLast_isSome (s : InlineeState) :
    (backpatchLast s).last_info.isSome = s.last_info.isSome := by
  unfold backpatchLast
  cases h : s.last_info
  · simp [h]
  · simp only [h]
    split <;> simp [h]

/-- Counting the outputs of a drained inlinee run: one record per emitting
operation, plus one for a pending record already present at the start. -/
theorem inlineeRun_length (ops : List BinaryAnnot) : ∀ s : InlineeState,
    (inlineeRun s ops).length =
      ops.countP (fun op => op.emits_line_info) +
        (if s.last_info.isSome then 1 else 0) := by
  induction ops with
  | nil =>
    intro s
    cases h : s.last_info <;> simp [inlineeRun, h]
  | cons op rest ih =>
    intro s
    by_cases hemit : op.emits_line_info = true
    · have hsome : (emitLineInfo (applyAnnot s op)).1.last_info.isSome = true := by
        simp [emitLineInfo]
      have hprev : (emitLineInfo (applyAnnot s op)).2.isSome = s.last_info.isSome := by
        show (backpatchLast (applyAnnot s op)).last_info.isSome = _
        rw [backpatchLast_isSome, applyAnnot_last_isSome]
      have htl : (emitLineInfo (applyAnnot s op)).2.toList.length =
          if s.last_info.isSome then 1 else 0 := by
        rw [← hprev]
        cases hx : (emitLineInfo (applyAnnot s op)).2 <;> simp [hx]
      simp only [inlineeRun, List.countP_cons]
      rw [if_pos hemit, List.length_append, ih, hsome, htl]
      simp only [hemit, if_pos]
      omega
    · simp only [inlineeRun, List.countP_cons]
      rw [if_neg hemit, ih, applyAnnot_last_isSome]
      have h0 : (if op.emits_line_info = true then 1 else 0) = 0 :=
        if_neg hemit
      rw [h0]
      omega

/-- C4: in the inlinee reconstruction engine, output is produced one step
behind the emitting operations.  First conjunct: starting with no pending
record, a drained run yields exactly one record per operation flagged
`emits_line_info` (non-emitting operations yield nothing, the last emission
is flushed at end of stream).  Second conjunct: an exhausted stream flushes
the pending record, if any, as the final output.  Third conjunct:
non-emitting operations only update state.  Fourth conjunct: an emitting
operation first back-patches the pending record (`backpatchLast`: only if
the length is unset and the kind matches), then swaps in the freshly built
record (`pendingRecord` of the updated state, with the one-shot code length
reset to `none`) and releases the previous pending record, if one existed,
as the next output.  Fifth conjunct: the constructed record carries
`offset = code_offset + code_offset_base`, `line_end = line + line_length`
(both wrapping u32) and the current one-shot code length. -/
theorem c4_one_step_behind_emission :
    (∀ (s : InlineeState) (ops : List BinaryAnnot), s.last_info = none →
      (inlineeRun s ops).length =
        ops.countP (fun op => op.emits_line_info)) ∧
    (∀ s : InlineeState, inlineeRun s [] = s.last_info.toList) ∧
    (∀ (s : InlineeState) (op : BinaryAnnot) (rest : List BinaryAnnot),
      op.emits_line_info = false →
      inlineeRun s (op :: rest) = inlineeRun (applyAnnot s op) rest) ∧
    (∀ (s : InlineeState) (op : BinaryAnnot) (rest : List BinaryAnnot),
      op.emits_line_info = true →
      inlineeRun s (op :: rest) =
        (backpatchLast (applyAnnot s op)).last_info.toList ++
          inlineeRun
            { backpatchLast (applyAnnot s op) with
                code_length := none,
                last_info :=
                  some (pendingRecord (backpatchLast (applyAnnot s op))) }
            rest) ∧
    (∀ s : InlineeState,
      (pendingRecord s).offset =
        { offset := u32mod (s.code_offset.offset + s.code_offset_base),
          sect := s.code_offset.sect } ∧
      (pendingRecord s).line_end = u32mod (s.line + s.line_length) ∧
      (pendingRecord s).length = s.code_length) := by
  refine ⟨?_, ?_, ?_, ?_, ?_⟩
  · intro s ops h
    rw [inlineeRun_length, h]
    simp
  · intro s
    rfl
  · intro s op rest h
    simp [inlineeRun, h]
  · intro s op rest h
    simp [inlineeRun, h, emitLineInfo]
  · intro s
    exact ⟨rfl, rfl, rfl⟩

/-- Witness for `c4_one_step_behind_emission`: a fresh state (no pending
record) and a stream with one emitting and one non-emitting operation
produce exactly one record. -/
theorem c4_one_step_behind_emission_witness :
    (inlineeRun (InlineeState.new { offset := 0, sect := 1 } 0 0)
        [BinaryAnnot.ChangeCodeOffset 4,
         BinaryAnnot.ChangeLineEndDelta 2]).length =
      [BinaryAnnot.ChangeCodeOffset 4,
       BinaryAnnot.ChangeLineEndDelta 2].countP
        (fun op => op.emits_line_info) :=
  c4_one_step_behind_emission.1 _ _ rfl

/-- C5: the `ChangeCodeLength` operation advances the code offset by the
given length in all cases (first conjunct, wrapping u32 addition on the
offset field), leaves an absent pending record absent (second conjunct),
and back-patches a present pending record's length to the given code length
exactly when that length is still unset and the record's kind matches the
current range kind, leaving the record untouched otherwise (third
conjunct). -/
theorem c5_change_code_length_backpatch (s : InlineeState) (code_length : Nat) :
    ((applyAnnot s (BinaryAnnot.ChangeCodeLength code_length)).code_offset =
      { offset := u32mod (s.code_offset.offset + code_length),
        sect := s.code_offset.sect }) ∧
    (s.last_info = none →
      (applyAnnot s (BinaryAnnot.ChangeCodeLength code_length)).last_info =
        none) ∧
    (∀ p : LineInfo, s.last_info = some p →
      ((p.length = none ∧ p.kind = s.line_kind) →
        (applyAnnot s (BinaryAnnot.ChangeCodeLength code_length)).last_info =
          some { p with length := some code_length }) ∧
      (¬ (p.length = none ∧ p.kind = s.line_kind) →
        (applyAnnot s (BinaryAnnot.ChangeCodeLength code_length)).last_info =
          some p)) := by
  refine ⟨rfl, ?_, ?_⟩
  · intro h
    simp [applyAnnot, h]
  · intro p hp
    constructor
    · intro hcond
      simp [applyAnnot, hp, hcond]
    · intro hcond
      simp only [applyAnnot, hp]
      rw [if_neg hcond]

/-- Witness for `c5_change_code_length_backpatch`: a pending record with
unset length and matching kind receives length 7. -/
theorem c5_change_code_length_backpatch_witness :
    (applyAnnot
      { InlineeState.new { offset := 0, sect := 1 } 0 0 with
          last_info := some
            { offset := { offset := 0, sect := 1 }, length := none,
              file_index := 0, line_start := 0, line_end := 1,
              column_start := none, column_end := none,
              kind := LineInfoKind.Statement } }
      (BinaryAnnot.ChangeCodeLength 7)).last_info =
    some
      { offset := { offset := 0, sect := 1 }, length := some 7,
        file_index := 0, line_start := 0, line_end := 1,
        column_start := none, column_end := none,
        kind := LineInfoKind.Statement } :=
  ((c5_change_code_length_backpatch _ 7).2.2 _ rfl).1 ⟨rfl, rfl⟩

/-- One unfolding of the framer step on a buffer holding at least the 8-byte
header. -/
theorem subsectionNext_cons (k0 k1 k2 k3 l0 l1 l2 l3 : Nat) (rest : List Nat) :
    DebugSubsectionIterator.next
        (k0 :: k1 :: k2 :: k3 :: l0 :: l1 :: l2 :: l3 :: rest) =
      (if u32le l0 l1 l2 l3 ≤ rest.length then
        match DebugSubsectionKind.parse (u32le k0 k1 k2 k3) with
        | Except.error e => Except.error e
        | Except.ok (some kind) =>
          Except.ok (some
            ({ kind := kind, data := rest.take (u32le l0 l1 l2 l3) },
             rest.drop (u32le l0 l1 l2 l3)))
        | Except.ok none =>
          DebugSubsectionIterator.next (rest.drop (u32le l0 l1 l2 l3))
      else Except.error Error.unexpectedEof) := by
  conv_lhs => unfold DebugSubsectionIterator.next
  rfl

/-- C6: the subsection framer reads a fixed `{kind : u32, length : u32}`
header and consumes exactly `length` body bytes at each step, regardless of
the kind.  First conjunct: an empty buffer ends iteration.  Second conjunct:
a non-empty buffer shorter than the 8-byte header is a truncation error.
Third to fifth conjuncts: the kind decode succeeds exactly on the closed
enumeration `0xf1..=0xfd`, yields no subsection exactly on the ignore tag,
and is a decode error exactly otherwise.  Last conjunct, for any buffer
starting with a full header: a body longer than the remainder is a
truncation error; otherwise recognized kinds return the `length`-byte body,
the ignore tag skips the body and continues with the following bytes, and an
unrecognized kind propagates the decode error. -/
theorem c6_subsection_framing :
    (DebugSubsectionIterator.next [] = Except.ok none) ∧
    (∀ buf : List Nat, buf ≠ [] → buf.length < 8 →
      DebugSubsectionIterator.next buf = Except.error Error.unexpectedEof) ∧
    (∀ v : Nat, (∃ k, DebugSubsectionKind.parse v = Except.ok (some k)) ↔
      (0xf1 ≤ v ∧ v ≤ 0xfd)) ∧
    (∀ v : Nat, DebugSubsectionKind.parse v = Except.ok none ↔
      v = DEBUG_S_IGNORE) ∧
    (∀ v : Nat, DebugSubsectionKind.parse v =
        Except.error (Error.unimplementedDebugSubsection v) ↔
      (¬ (0xf1 ≤ v ∧ v ≤ 0xfd) ∧ v ≠ DEBUG_S_IGNORE)) ∧
    (∀ k0 k1 k2 k3 l0 l1 l2 l3 : Nat, ∀ rest : List Nat,
      (rest.length < u32le l0 l1 l2 l3 →
        DebugSubsectionIterator.next
            (k0 :: k1 :: k2 :: k3 :: l0 :: l1 :: l2 :: l3 :: rest) =
          Except.error Error.unexpectedEof) ∧
      (u32le l0 l1 l2 l3 ≤ rest.length →
        (∀ k, DebugSubsectionKind.parse (u32le k0 k1 k2 k3) =
            Except.ok (some k) →
          DebugSubsectionIterator.next
              (k0 :: k1 :: k2 :: k3 :: l0 :: l1 :: l2 :: l3 :: rest) =
            Except.ok (some
              ({ kind := k, data := rest.take (u32le l0 l1 l2 l3) },
               rest.drop (u32le l0 l1 l2 l3)))) ∧
        (DebugSubsectionKind.parse (u32le k0 k1 k2 k3) = Except.ok none →
          DebugSubsectionIterator.next
              (k0 :: k1 :: k2 :: k3 :: l0 :: l1 :: l2 :: l3 :: rest) =
            DebugSubsectionIterator.next (rest.drop (u32le l0 l1 l2 l3))) ∧
        (∀ e, DebugSubsectionKind.parse (u32le k0 k1 k2 k3) =
            Except.error e →
          DebugSubsectionIterator.next
              (k0 :: k1 :: k2 :: k3 :: l0 :: l1 :: l2 :: l3 :: rest) =
            Except.error e))) := by
  refine ⟨?_, ?_, ?_, ?_, ?_, ?_⟩
  · unfold DebugSubsectionIterator.next
    rfl
  · intro buf hne hlen
    unfold DebugSubsectionIterator.next
    rcases buf with _ | ⟨b0, _ | ⟨b1, _ | ⟨b2, _ | ⟨b3, _ | ⟨b4, _ | ⟨b5, _ |
      ⟨b6, _ | ⟨b7, tail⟩⟩⟩⟩⟩⟩⟩⟩
    · exact absurd rfl hne
    · rfl
    · rfl
    · rfl
    · rfl
    · rfl
    · rfl
    · rfl
    · exfalso
      simp only [List.length_cons] at hlen
      omega
  · intro v
    unfold DebugSubsectionKind.parse
    by_cases h1 : 0xf1 ≤ v ∧ v ≤ 0xfd
    · simp [h1]
    · by_cases h2 : v = DEBUG_S_IGNORE
      · simp [h1, h2, DEBUG_S_IGNORE]
      · simp [h1, h2]
  · intro v
    unfold DebugSubsectionKind.parse
    by_cases h1 : 0xf1 ≤ v ∧ v ≤ 0xfd
    · have hne : v ≠ DEBUG_S_IGNORE := by
        unfold DEBUG_S_IGNORE
        omega
      simp [h1, hne]
    · by_cases h2 : v = DEBUG_S_IGNORE
      · simp [h1, h2, DEBUG_S_IGNORE]
      · simp [h1, h2]
  · intro v
    unfold DebugSubsectionKind.parse
    by_cases h1 : 0xf1 ≤ v ∧ v ≤ 0xfd
    · simp [h1]
    · by_cases h2 : v = DEBUG_S_IGNORE
      · simp [h1, h2, DEBUG_S_IGNORE]
      · simp [h1, h2]
  · intro k0 k1 k2 k3 l0 l1 l2 l3 rest
    refine ⟨?_, ?_⟩
    · intro hlen
      rw [subsectionNext_cons, if_neg (Nat.not_le.mpr hlen)]
    · intro hlen
      refine ⟨?_, ?_, ?_⟩
      · intro k hk
        rw [subsectionNext_cons, if_pos hlen, hk]
      · intro hk
        rw [subsectionNext_cons, if_pos hlen, hk]
      · intro e he
        rw [subsectionNext_cons, if_pos hlen, he]

/-- Witness for `c6_subsection_framing`: the buffer
`[0xf2,0,0,0, 1,0,0,0, 0xab]` frames one `Lines` subsection with the single
body byte `0xab` and an empty remainder. -/
theorem c6_subsection_framing_witness :
    DebugSubsectionIterator.next [0xf2, 0, 0, 0, 1, 0, 0, 0, 0xab] =
      Except.ok (some
        ({ kind := DebugSubsectionKind.Lines, data := [0xab] }, [])) := by
  have h := (((c6_subsection_framing.2.2.2.2.2 0xf2 0 0 0 1 0 0 0 [0xab]).2
    (by decide)).1 DebugSubsectionKind.Lines rfl)
  simpa [u32le] using h

/-- A successful checksum iterator step starts strictly inside the data,
advances the position, stays within the data and leaves the position 4-byte
aligned. -/
theorem checksumNext_bounds (data : List Nat) (pos pos' : Nat)
    (e : FileChecksumEntry)
    (h : checksumNext data pos = Except.ok (some (e, pos'))) :
    pos < data.length ∧ pos < pos' ∧ pos' ≤ data.length ∧ pos' % 4 = 0 := by
  unfold checksumNext at h
  split at h
  case _ heq =>
    exact Option.noConfusion (Except.ok.inj h)
  case _ b0 b1 b2 b3 b4 b5 rest heq =>
    have hdrop : pos < data.length := by
      by_contra hge
      have : data.drop pos = [] := List.drop_eq_nil_of_le (by omega)
      rw [this] at heq
      exact List.noConfusion heq
    split at h
    · split at h
      · exact Except.noConfusion h
      · dsimp only [] at h
        split at h
        case _ hfit =>
          have hinj := Prod.mk.inj (Option.some.inj (Except.ok.inj h))
          have hpos' : pos' = pos + 6 + b4 + alignSkip (pos + 6 + b4) :=
            hinj.2.symm
          refine ⟨hdrop, ?_, ?_, ?_⟩
          · omega
          · omega
          · rw [hpos']
            unfold alignSkip
            omega
        · exact Except.noConfusion h
    · exact Except.noConfusion h
  case _ =>
    exact Except.noConfusion h

/-- Every entry collected by iterating the checksum table from an aligned
position starts at an aligned offset strictly inside the data, and parsing
one entry at that offset reproduces it. -/
theorem checksumEntriesAux_mem (data : List Nat) :
    ∀ (fuel pos : Nat) (l : List (Nat × FileChecksumEntry)),
      checksumEntriesAux data fuel pos = Except.ok l →
      pos % 4 = 0 →
      ∀ o e, (o, e) ∈ l →
        o % 4 = 0 ∧ o < data.length ∧
        ∃ pos', checksumNext data o = Except.ok (some (e, pos')) := by
  intro fuel
  induction fuel with
  | zero =>
    intro pos l h hpos o e hmem
    have hl : l = [] := (Except.ok.inj h).symm
    rw [hl] at hmem
    exact absurd hmem (List.not_mem_nil _)
  | succ fuel ih =>
    intro pos l h hpos o e hmem
    unfold checksumEntriesAux at h
    split at h
    · exact Except.noConfusion h
    · have hl : l = [] := (Except.ok.inj h).symm
      rw [hl] at hmem
      exact absurd hmem (List.not_mem_nil _)
    · case _ entry next hstep =>
      split at h
      · exact Except.noConfusion h
      · case _ rest hrest =>
        have hl : (pos, entry) :: rest = l := Except.ok.inj h
        rw [← hl] at hmem
        have hbounds := checksumNext_bounds data pos next entry hstep
        rcases List.mem_cons.mp hmem with hhead | htail
        · have ho : o = pos := congrArg Prod.fst hhead
          have he : e = entry := congrArg Prod.snd hhead
          rw [ho, he]
          exact ⟨hpos, hbounds.1, next, hstep⟩
        · exact ih next rest hrest (hbounds.2.2.2) o e htail

/-- C7: every entry produced at some byte offset by full iteration of the
file-checksum subsection from offset 0 is aligned to 4 bytes, is a valid
argument to `entries_at_offset` (which succeeds and positions the fresh
iterator at exactly that offset), and is reproduced identically (same name
reference, same checksum variant) as the first entry parsed by the iterator
started at that offset. -/
theorem c7_checksum_round_trip (data : List Nat)
    (l : List (Nat × FileChecksumEntry))
    (h : checksumEntries data 0 = Except.ok l) :
    ∀ o e, (o, e) ∈ l →
      o % 4 = 0 ∧
      DebugFileChecksumsSubsection.entries_at_offset data o = Except.ok o ∧
      ∃ pos', checksumNext data o = Except.ok (some (e, pos')) := by
  intro o e hmem
  obtain ⟨h4, hlt, hfirst⟩ :=
    checksumEntriesAux_mem data (data.length + 1) 0 l h (by decide) o e hmem
  refine ⟨h4, ?_, hfirst⟩
  unfold DebugFileChecksumsSubsection.entries_at_offset
  rw [if_pos (Nat.le_of_lt hlt)]

/-- Witness for `c7_checksum_round_trip`: a table holding a single Md5 entry
(name reference 1, two checksum bytes) starting at offset 0. -/
theorem c7_checksum_round_trip_witness :
    0 % 4 = 0 ∧
    DebugFileChecksumsSubsection.entries_at_offset
        [1, 0, 0, 0, 2, 1, 0xaa, 0xbb] 0 = Except.ok 0 ∧
    ∃ pos', checksumNext [1, 0, 0, 0, 2, 1, 0xaa, 0xbb] 0 =
      Except.ok (some
        ({ name := 1, checksum := FileChecksum.Md5 [0xaa, 0xbb] }, pos')) :=
  c7_checksum_round_trip [1, 0, 0, 0, 2, 1, 0xaa, 0xbb]
    [(0, { name := 1, checksum := FileChecksum.Md5 [0xaa, 0xbb] })] rfl
    0 { name := 1, checksum := FileChecksum.Md5 [0xaa, 0xbb] }
    (List.mem_singleton.mpr rfl)

/-- A hit of the binary search loop carries the searched key. -/
theorem bsearchGo_sound (xs : List (Nat × Nat)) (key : Nat) :
    ∀ (n lo hi : Nat) (hhi : hi ≤ xs.length) (i : Fin xs.length),
      hi - lo ≤ n →
      bsearchGo xs key lo hi hhi = some i →
      (xs.get i).1 = key := by
  intro n
  induction n with
  | zero =>
    intro lo hi hhi i hn h
    unfold bsearchGo at h
    rw [dif_neg (by omega)] at h
    exact Option.noConfusion h
  | succ n ih =>
    intro lo hi hhi i hn h
    unfold bsearchGo at h
    by_cases hlt : lo < hi
    · rw [dif_pos hlt] at h
      dsimp only at h
      split at h
      · exact ih ((lo + hi) / 2 + 1) hi hhi i (by omega) h
      · split at h
        · exact ih lo ((lo + hi) / 2) (by omega) i (by omega) h
        · case _ hnlt hngt =>
          have hi2 := Option.some.inj h
          rw [← hi2]
          omega
    · rw [dif_neg hlt] at h
      exact Option.noConfusion h

/-- Over a strictly sorted list, the binary search loop cannot miss a key
present inside its window. -/
theorem bsearchGo_complete (xs : List (Nat × Nat)) (key : Nat)
    (hmono : ∀ (i j : Fin xs.length), i < j → (xs.get i).1 < (xs.get j).1) :
    ∀ (n lo hi : Nat) (hhi : hi ≤ xs.length) (j : Fin xs.length),
      hi - lo ≤ n → lo ≤ j.val → j.val < hi → (xs.get j).1 = key →
      bsearchGo xs key lo hi hhi ≠ none := by
  intro n
  induction n with
  | zero =>
    intro lo hi hhi j hn hlo hj hkey
    omega
  | succ n ih =>
    intro lo hi hhi j hn hlo hj hkey
    have hlt : lo < hi := by omega
    have hmid : (lo + hi) / 2 < xs.length := by omega
    unfold bsearchGo
    rw [dif_pos hlt]
    dsimp only
    split
    · case _ hklt =>
      have hklt' : (xs.get ⟨(lo + hi) / 2, hmid⟩).1 < key := hklt
      apply ih ((lo + hi) / 2 + 1) hi hhi j (by omega) ?_ hj hkey
      by_contra hcon
      push_neg at hcon
      have hle : (xs.get j).1 ≤ (xs.get ⟨(lo + hi) / 2, hmid⟩).1 := by
        rcases Nat.lt_or_ge j.val ((lo + hi) / 2) with hl | hg
        · exact Nat.le_of_lt (hmono j ⟨(lo + hi) / 2, hmid⟩ hl)
        · have hje : j = ⟨(lo + hi) / 2, hmid⟩ :=
            Fin.ext (show j.val = (lo + hi) / 2 by omega)
          rw [hje]
      omega
    · split
      · case _ hnlt hkgt =>
        have hkgt' : key < (xs.get ⟨(lo + hi) / 2, hmid⟩).1 := hkgt
        apply ih lo ((lo + hi) / 2) (by omega) j (by omega) hlo ?_ hkey
        by_contra hcon
        push_neg at hcon
        have hge : (xs.get ⟨(lo + hi) / 2, hmid⟩).1 ≤ (xs.get j).1 := by
          rcases Nat.lt_or_ge ((lo + hi) / 2) j.val with hl | hg
          · exact Nat.le_of_lt (hmono ⟨(lo + hi) / 2, hmid⟩ j hl)
          · have hje : j = ⟨(lo + hi) / 2, hmid⟩ :=
              Fin.ext (show j.val = (lo + hi) / 2 by omega)
            rw [hje]
        omega
      · simp

/-- Over a strictly sorted list, positions carrying equal keys coincide. -/
theorem sorted_key_unique (xs : List (Nat × Nat))
    (hmono : ∀ (i j : Fin xs.length), i < j → (xs.get i).1 < (xs.get j).1)
    (i j : Fin xs.length) (h : (xs.get i).1 = (xs.get j).1) : i = j := by
  by_contra hne
  rcases Fin.lt_or_lt_of_ne hne with hl | hl
  · exact absurd h (Nat.ne_of_lt (hmono i j hl))
  · exact absurd h.symm (Nat.ne_of_lt (hmono j i hl))

/-- C8: over any export array strictly sorted ascending by `local`,
`resolve_global` is a correct lookup: it returns `some g` exactly when the
pair `(local, g)` is present in the array, and `none` exactly when `local`
appears nowhere among the `local` fields — lookup misses are `none`, not an
error. -/
theorem c8_resolve_global_binary_search (exports : List (Nat × Nat))
    (localIdx : Nat)
    (hsorted : List.Pairwise (fun a b => a.1 < b.1) exports) :
    (∀ g, CrossModuleExports.resolve_global exports localIdx = some g ↔
      (localIdx, g) ∈ exports) ∧
    (CrossModuleExports.resolve_global exports localIdx = none ↔
      localIdx ∉ exports.map Prod.fst) := by
  have hmono : ∀ (i j : Fin exports.length), i < j →
      (exports.get i).1 < (exports.get j).1 :=
    List.pairwise_iff_get.mp hsorted
  have hsound : ∀ i : Fin exports.length,
      binarySearchByKey exports localIdx = some i →
      (exports.get i).1 = localIdx := by
    intro i hb
    exact bsearchGo_sound exports localIdx exports.length 0 exports.length
      (Nat.le_refl _) i (by omega) hb
  have hcomplete : ∀ j : Fin exports.length, (exports.get j).1 = localIdx →
      binarySearchByKey exports localIdx ≠ none := by
    intro j hj
    exact bsearchGo_complete exports localIdx hmono exports.length 0
      exports.length (Nat.le_refl _) j (by omega) (Nat.zero_le _) j.isLt hj
  constructor
  · intro g
    constructor
    · intro h
      unfold CrossModuleExports.resolve_global at h
      cases hb : binarySearchByKey exports localIdx with
      | none =>
        rw [hb] at h
        exact Option.noConfusion h
      | some i =>
        rw [hb] at h
        have hg : (exports.get i).2 = g := Option.some.inj h
        have hk := hsound i hb
        have hget : exports.get i = (localIdx, g) := by
          rw [← hk, ← hg]
        rw [← hget]
        exact List.get_mem exports i.val i.isLt
    · intro hmem
      obtain ⟨j, hj⟩ := List.mem_iff_get.mp hmem
      have hjk : (exports.get j).1 = localIdx := by rw [hj]
      cases hb : binarySearchByKey exports localIdx with
      | none => exact absurd hb (hcomplete j hjk)
      | some i =>
        have hik := hsound i hb
        have hij : i = j :=
          sorted_key_unique exports hmono i j (by rw [hik, hjk])
        unfold CrossModuleExports.resolve_global
        rw [hb, hij]
        show some (exports.get j).2 = some g
        rw [hj]
  · constructor
    · intro h hmem
      obtain ⟨p, hp, hp1⟩ := List.mem_map.mp hmem
      obtain ⟨j, hj⟩ := List.mem_iff_get.mp hp
      have hjk : (exports.get j).1 = localIdx := by rw [hj, hp1]
      cases hb : binarySearchByKey exports localIdx with
      | none => exact hcomplete j hjk hb
      | some i =>
        unfold CrossModuleExports.resolve_global at h
        rw [hb] at h
        exact Option.noConfusion h
    · intro hnot
      cases hb : binarySearchByKey exports localIdx with
      | none =>
        unfold CrossModuleExports.resolve_global
        rw [hb]
      | some i =>
        exfalso
        apply hnot
        apply List.mem_map.mpr
        exact ⟨exports.get i, List.get_mem exports i.val i.isLt, hsound i hb⟩

/-- Witness for `c8_resolve_global_binary_search` on the sorted export array
`[(2, 10), (5, 20), (9, 30)]`: the present key 5 resolves to its paired
global 20, and the absent in-range key 4, below-range key 1 and above-range
key 12 all resolve to `none`. -/
theorem c8_resolve_global_binary_search_witness :
    CrossModuleExports.resolve_global [(2, 10), (5, 20), (9, 30)] 5 =
      some 20 ∧
    CrossModuleExports.resolve_global [(2, 10), (5, 20), (9, 30)] 4 = none ∧
    CrossModuleExports.resolve_global [(2, 10), (5, 20), (9, 30)] 1 = none ∧
    CrossModuleExports.resolve_global [(2, 10), (5, 20), (9, 30)] 12 = none :=
  ⟨((c8_resolve_global_binary_search [(2, 10), (5, 20), (9, 30)] 5
      (by decide)).1 20).mpr (by decide),
   (c8_resolve_global_binary_search [(2, 10), (5, 20), (9, 30)] 4
      (by decide)).2.mpr (by decide),
   (c8_resolve_global_binary_search [(2, 10), (5, 20), (9, 30)] 1
      (by decide)).2.mpr (by decide),
   (c8_resolve_global_binary_search [(2, 10), (5, 20), (9, 30)] 12
      (by decide)).2.mpr (by decide)⟩

end Pdb
